import Mathlib

/-!
Verification of the metapilot permission / agent-execution core.

The development shallowly embeds the relevant parts of the repository:

* `PermissionManager` (src/app/services/permissions/PermissionManager.ts):
  permission lifecycle, lazy expiry, `validateAction`, `recordSpend`,
  `revokePermission`, `createPermission`.
* `AgentExecutor` (agent execution service): `fallbackDecisionMaking`,
  `queryGaiaLLM`, `parseScheduleFromDescription`, `calculateNextExecution`,
  `executeTransaction`, `processIntent`, `executeIntentDirectly`.

Modelling conventions:

* Decimal amounts are stored as strings in the source and manipulated through
  `parseFloat`; here they are rationals (`Rat`), so arithmetic is exact.
* Timestamps (`Date`) are integers in milliseconds since the epoch.
* The in-memory `Map` objects become association lists with JS `Map.set`
  semantics (replace the existing key in place, otherwise append).
* External collaborators (wallet manager, smart-account service, transaction
  service, market data, reasoning provider) are parameters: their outcomes
  are supplied through an `ExecOracles` record, matching one concrete run.
* Thrown JS errors become `Except String` results or an explicit propagated
  error-message component; `localStorage` persistence and `setTimeout` timer
  registration have no effect on the modelled state and are omitted.
-/

/-! ## Association-list maps with JS Map semantics -/

def mapGet {α : Type} : List (String × α) → String → Option α
  | [], _ => none
  | (k0, v0) :: rest, k => if k0 = k then some v0 else mapGet rest k

def mapSet {α : Type} : List (String × α) → String → α → List (String × α)
  | [], k, v => [(k, v)]
  | (k0, v0) :: rest, k, v =>
      if k0 = k then (k0, v) :: rest else (k0, v0) :: mapSet rest k v

@[simp]
theorem mapGet_mapSet_self {α : Type} (m : List (String × α)) (k : String) (v : α) :
    mapGet (mapSet m k v) k = some v := by
  induction m with
  | nil => simp [mapGet, mapSet]
  | cons p rest ih =>
      obtain ⟨k0, v0⟩ := p
      by_cases h : k0 = k <;> simp [mapGet, mapSet, h, ih]

theorem mapGet_mapSet_ne {α : Type} (m : List (String × α)) (k k' : String) (v : α)
    (h : k ≠ k') : mapGet (mapSet m k v) k' = mapGet m k' := by
  induction m with
  | nil => simp [mapGet, mapSet, h]
  | cons p rest ih =>
      obtain ⟨k0, v0⟩ := p
      by_cases hk : k0 = k
      · subst hk
        simp [mapGet, mapSet, h]
      · simp [mapGet, mapSet, hk, ih]

/-! ## PermissionManager data model (src/app/types permissions.ts) -/

inductive PermissionStatus : Type
  | pending
  | active
  | expired
  | revoked
deriving DecidableEq, Repr

structure SpendEntry : Type where
  timestamp : Int
  amount : Rat
  transactionHash : String
  remainingAfter : Rat
deriving DecidableEq, Repr

structure SpendTracking : Type where
  permissionId : String
  totalSpent : Rat
  remainingAllowance : Rat
  spendEntries : List SpendEntry
deriving DecidableEq, Repr

structure ERC7715Permission : Type where
  id : String
  tokenAddress : String
  maxSpendAmount : Rat
  startTime : Int
  endTime : Int
  allowedContracts : List String
  status : PermissionStatus
  grantedAt : Int
  transactionHash : Option String
  smartAccountPermissionId : Option String
deriving DecidableEq, Repr

structure PermissionRequest : Type where
  tokenAddress : String
  maxSpendAmount : Rat
  startTime : Int
  endTime : Int
  allowedContracts : List String
deriving DecidableEq, Repr

/-- The two maps owned by `PermissionManager`. -/
structure PMState : Type where
  permissions : List (String × ERC7715Permission)
  spendTracking : List (String × SpendTracking)
deriving DecidableEq, Repr

/-! ## PermissionManager operations -/

/-- `updatePermissionStatus`: lazy expiry on read.  Revoked permissions are
never changed; otherwise, when `now` is past `endTime`, the status becomes
`expired` and the updated record is written back into the permission map
under the key `permission.id`. -/
def updatePermissionStatus (now : Int) (s : PMState) (p : ERC7715Permission) :
    ERC7715Permission × PMState :=
  if p.status = PermissionStatus.revoked then (p, s)
  else if p.endTime < now then
    let p1 := { p with status := PermissionStatus.expired }
    (p1, { s with permissions := mapSet s.permissions p.id p1 })
  else (p, s)

/-- `getPermission`: map lookup followed by the lazy-expiry update. -/
def getPermission (now : Int) (s : PMState) (id : String) :
    Option ERC7715Permission × PMState :=
  match mapGet s.permissions id with
  | none => (none, s)
  | some p =>
      let r := updatePermissionStatus now s p
      (some r.1, r.2)

/-- JS `toLowerCase`, realized per character (kernel-reducible, unlike the
built-in `String.toLower`). -/
def strToLower (s : String) : String :=
  String.mk (s.toList.map Char.toLower)

/-- The status a permission is observed to have after the lazy-expiry check,
without the state write.  Used to phrase theorems about reads. -/
def effectiveStatus (now : Int) (p : ERC7715Permission) : PermissionStatus :=
  if p.status = PermissionStatus.revoked then PermissionStatus.revoked
  else if p.endTime < now then PermissionStatus.expired
  else p.status

/-- `validateAction(permissionId, tokenAddress, amount, contractAddress)`.
Returns the boolean verdict together with the post-call state (the lookup
goes through `getPermission`, which performs the lazy-expiry write). -/
def validateAction (now : Int) (s : PMState) (permissionId tokenAddress : String)
    (amount : Rat) (contractAddress : String) : Bool × PMState :=
  let r := getPermission now s permissionId
  match r.1 with
  | none => (false, r.2)
  | some p =>
      if p.status ≠ PermissionStatus.active then (false, r.2)
      else if strToLower p.tokenAddress ≠ strToLower tokenAddress then (false, r.2)
      else if ¬ (∃ a ∈ p.allowedContracts, strToLower a = strToLower contractAddress) then
        (false, r.2)
      else
        let spendExceeded : Bool :=
          match mapGet r.2.spendTracking permissionId with
          | some tracking => decide (tracking.totalSpent + amount > p.maxSpendAmount)
          | none => false
        if spendExceeded then (false, r.2)
        else if now < p.startTime ∨ p.endTime < now then (false, r.2)
        else (true, r.2)

/-- `recordSpend(permissionId, amount, transactionHash)`.  Throws when the
tracking record is missing; otherwise appends a `SpendEntry`, adds the amount
to `totalSpent`, subtracts it from `remainingAllowance`. -/
def recordSpend (now : Int) (s : PMState) (permissionId : String) (amount : Rat)
    (transactionHash : String) : Except String PMState :=
  match mapGet s.spendTracking permissionId with
  | none => Except.error "Spend tracking not found for permission"
  | some tracking =>
      let newTotalSpent := tracking.totalSpent + amount
      let newRemainingAllowance := tracking.remainingAllowance - amount
      let tracking1 :=
        { tracking with
            totalSpent := newTotalSpent
            remainingAllowance := newRemainingAllowance
            spendEntries := tracking.spendEntries ++
              [{ timestamp := now, amount := amount,
                 transactionHash := transactionHash,
                 remainingAfter := newRemainingAllowance }] }
      Except.ok { s with spendTracking := mapSet s.spendTracking permissionId tracking1 }

/-- `revokePermission(id)`.  Reads the raw permission map (no lazy-expiry
update), requires the stored status to be `active`, then marks the permission
revoked.  The simulated MetaMask revocation in the source never fails. -/
def revokePermission (walletConnected : Bool) (s : PMState) (id : String) :
    Except String PMState :=
  if walletConnected = false then
    Except.error "Wallet not connected. Please connect your wallet to continue."
  else
    match mapGet s.permissions id with
    | none => Except.error "Permission not found"
    | some p =>
        if p.status ≠ PermissionStatus.active then
          Except.error "Can only revoke active permissions"
        else
          Except.ok { s with
            permissions := mapSet s.permissions id { p with status := PermissionStatus.revoked } }

/-- Hexadecimal digit test for the address regex. -/
def isHexDigitCh (c : Char) : Bool :=
  c.isDigit || ('a' ≤ c && c ≤ 'f') || ('A' ≤ c && c ≤ 'F')

/-- `isValidAddress`: the regex `0x` followed by exactly 40 hex digits. -/
def isValidAddress (s : String) : Bool :=
  match s.toList with
  | '0' :: 'x' :: rest => rest.length == 40 && rest.all isHexDigitCh
  | _ => false

/-- `validatePermissionRequest`: first violated rule, if any, as the thrown
message. -/
def validatePermissionRequest (req : PermissionRequest) : Option String :=
  if isValidAddress req.tokenAddress = false then some "Invalid token address"
  else if req.maxSpendAmount ≤ 0 then some "Invalid spend amount"
  else if req.endTime ≤ req.startTime then some "End time must be after start time"
  else if req.allowedContracts.isEmpty then some "At least one contract address is required"
  else
    match req.allowedContracts.find? (fun a => isValidAddress a = false) with
    | some a => some ("Invalid contract address: " ++ a)
    | none => none

/-- Outcomes of the external grant collaborator used by `createPermission`
(the smart-account service and the simulated transaction hash). -/
structure GrantOracle : Type where
  saInitialized : Bool
  grantResult : Except String String
  txHash : String

/-- `createPermission(request)`: wallet check, request validation, external
grant, then store the active permission and initialize its spend tracking
with `totalSpent = 0` and `remainingAllowance = maxSpendAmount`. -/
def createPermission (walletConnected : Bool) (g : GrantOracle) (now : Int)
    (permissionId : String) (s : PMState) (req : PermissionRequest) :
    Except String (ERC7715Permission × PMState) :=
  if walletConnected = false then
    Except.error "Wallet not connected. Please connect your wallet to continue."
  else
    match validatePermissionRequest req with
    | some msg => Except.error msg
    | none =>
        if g.saInitialized = false then
          Except.error ("Permission creation failed: " ++ "Smart Account not initialized")
        else
          match g.grantResult with
          | Except.error m => Except.error ("Permission creation failed: " ++ m)
          | Except.ok saPermId =>
              let p : ERC7715Permission :=
                { id := permissionId
                  tokenAddress := req.tokenAddress
                  maxSpendAmount := req.maxSpendAmount
                  startTime := req.startTime
                  endTime := req.endTime
                  allowedContracts := req.allowedContracts
                  status := PermissionStatus.active
                  grantedAt := now
                  transactionHash := some g.txHash
                  smartAccountPermissionId := some saPermId }
              Except.ok (p,
                { permissions := mapSet s.permissions permissionId p
                  spendTracking := mapSet s.spendTracking permissionId
                    { permissionId := permissionId
                      totalSpent := 0
                      remainingAllowance := req.maxSpendAmount
                      spendEntries := [] } })

/-- A sequence of `recordSpend` calls against one permission, stopping at the
first thrown error. -/
def recordSpendSeq (now : Int) (s : PMState) (permissionId : String) :
    List (Rat × String) → Except String PMState
  | [] => Except.ok s
  | (a, h) :: rest =>
      match recordSpend now s permissionId a h with
      | Except.error m => Except.error m
      | Except.ok s1 => recordSpendSeq now s1 permissionId rest

/-! ## AgentExecutor data model -/

inductive ScheduleType : Type
  | once
  | recurring
deriving DecidableEq, Repr

inductive Frequency : Type
  | minutely
  | hourly
  | daily
  | weekly
  | monthly
deriving DecidableEq, Repr

/-- The string the TS template produces for a frequency value. -/
def freqName : Frequency → String
  | Frequency.minutely => "minutely"
  | Frequency.hourly => "hourly"
  | Frequency.daily => "daily"
  | Frequency.weekly => "weekly"
  | Frequency.monthly => "monthly"

structure AgentSchedule : Type where
  type : ScheduleType
  frequency : Option Frequency
  interval : Option Nat
  nextExecution : Option Int
  isActive : Bool
deriving DecidableEq, Repr

structure AgentIntent : Type where
  description : String
  tokenAddress : String
  amount : Rat
  contractAddress : String
  permissionId : String
  schedule : Option AgentSchedule
deriving DecidableEq, Repr

structure AgentDecision : Type where
  shouldExecute : Bool
  reasoning : String
  confidence : Int
  riskAssessment : String
deriving DecidableEq, Repr

inductive ExecStatus : Type
  | pending
  | executed
  | failed
  | blocked
deriving DecidableEq, Repr

structure AgentExecution : Type where
  id : String
  intent : AgentIntent
  decision : AgentDecision
  status : ExecStatus
  transactionHash : Option String
  timestamp : Int
  explanation : String
  gasUsed : Option String
  error : Option String
deriving DecidableEq, Repr

inductive Congestion : Type
  | low
  | medium
  | high
deriving DecidableEq, Repr

structure MarketContext : Type where
  gasPrice : Rat
  tokenPrice : Rat
  networkCongestion : Congestion
  timestamp : Int
deriving DecidableEq, Repr

/-- Result of the external transaction-service call. -/
structure TxResult : Type where
  hash : String
  gasUsed : Option String
deriving DecidableEq, Repr

/-- Collaborator outcomes for one pipeline run: the wallet manager, the
market snapshot, the Gaia reasoning provider (configured flag and call
result), the smart-account service and the transaction service. -/
structure ExecOracles : Type where
  walletConnected : Bool
  marketContext : Except String MarketContext
  llmConfigured : Bool
  llmResult : Except String AgentDecision
  saInitialized : Bool
  saHasPerm : String → Bool
  execResult : Except String TxResult

/-- The agent-executor state the claims observe: the permission-manager
state plus the execution history. -/
structure AEState : Type where
  pm : PMState
  executions : List (String × AgentExecution)

/-! ## Schedule parsing (parseScheduleFromDescription) -/

/-- Substring scan backing the JS `String.prototype.includes` tests. -/
def containsSeq (needle : List Char) : List Char → Bool
  | [] => needle.isEmpty
  | c :: rest =>
      if needle.isPrefixOf (c :: rest) then true else containsSeq needle rest

/-- JS `lowerDesc.includes(pat)`. -/
def strIncludes (s pat : String) : Bool :=
  containsSeq pat.toList s.toList

/-- Maximal run of decimal digits, with the remainder. -/
def takeDigits : List Char → List Char × List Char
  | [] => ([], [])
  | c :: rest =>
      if c.isDigit then
        let r := takeDigits rest
        (c :: r.1, r.2)
      else ([], c :: rest)

/-- `parseInt` on a non-empty digit run. -/
def digitsToNat (ds : List Char) : Nat :=
  ds.foldl (fun n c => n * 10 + (c.toNat - 48)) 0

/-- The alternatives of the regex group `(minute|hour|day|week|month)`, in
their source order. -/
def unitAlternatives : List (String × Frequency) :=
  [("minute", Frequency.minutely), ("hour", Frequency.hourly),
   ("day", Frequency.daily), ("week", Frequency.weekly),
   ("month", Frequency.monthly)]

/-- First unit word matching at the given position. -/
def matchUnit (cs : List Char) : Option Frequency :=
  (unitAlternatives.find? (fun uf => uf.1.toList.isPrefixOf cs)).map
    (fun uf => uf.2)

/-- One attempted match of `every (\d+) (minute|hour|day|week|month)s?` at a
fixed position: the literal `every `, one or more digits, a space, then a
unit word (the optional trailing `s` never affects acceptance). -/
def tryPatternAt (cs : List Char) : Option (Nat × Frequency) :=
  if "every ".toList.isPrefixOf cs then
    let rest := cs.drop 6
    let d := takeDigits rest
    if d.1.isEmpty then none
    else
      match d.2 with
      | ' ' :: rest3 => (matchUnit rest3).map (fun u => (digitsToNat d.1, u))
      | _ => none
  else none

/-- Leftmost match of the interval regex, as `lowerDesc.match(...)` finds it. -/
def scanIntervalPattern : List Char → Option (Nat × Frequency)
  | [] => none
  | c :: rest =>
      match tryPatternAt (c :: rest) with
      | some r => some r
      | none => scanIntervalPattern rest

/-- `calculateNextExecution(frequency, interval)`.  Fixed millisecond
multiples for minutely/hourly/daily/weekly; the monthly branch delegates to
the JS `Date.setMonth` calendar arithmetic, supplied as the parameter
`monthlyAdvance now interval`. -/
def calculateNextExecution (monthlyAdvance : Int → Nat → Int) (now : Int) :
    Option Frequency → Nat → Int
  | some Frequency.minutely, i => now + (i : Int) * 60 * 1000
  | some Frequency.hourly, i => now + (i : Int) * 60 * 60 * 1000
  | some Frequency.daily, i => now + (i : Int) * 24 * 60 * 60 * 1000
  | some Frequency.weekly, i => now + (i : Int) * 7 * 24 * 60 * 60 * 1000
  | some Frequency.monthly, i => monthlyAdvance now i
  | none, _ => now + 60 * 1000

/-- `parseScheduleFromDescription(description)`: the fixed-phrase checks in
source order, then the generic `every N unit` regex, else a one-time
inactive schedule. -/
def parseScheduleFromDescription (monthlyAdvance : Int → Nat → Int) (now : Int)
    (description : String) : AgentSchedule :=
  let lowerDesc := strToLower description
  if strIncludes lowerDesc "every minute" || strIncludes lowerDesc "per minute" then
    { type := ScheduleType.recurring, frequency := some Frequency.minutely,
      interval := some 1,
      nextExecution := some (calculateNextExecution monthlyAdvance now (some Frequency.minutely) 1),
      isActive := true }
  else if strIncludes lowerDesc "daily" || strIncludes lowerDesc "every day" then
    { type := ScheduleType.recurring, frequency := some Frequency.daily,
      interval := some 1,
      nextExecution := some (calculateNextExecution monthlyAdvance now (some Frequency.daily) 1),
      isActive := true }
  else if strIncludes lowerDesc "weekly" || strIncludes lowerDesc "every week" then
    { type := ScheduleType.recurring, frequency := some Frequency.weekly,
      interval := some 1,
      nextExecution := some (calculateNextExecution monthlyAdvance now (some Frequency.weekly) 1),
      isActive := true }
  else if strIncludes lowerDesc "hourly" || strIncludes lowerDesc "every hour" then
    { type := ScheduleType.recurring, frequency := some Frequency.hourly,
      interval := some 1,
      nextExecution := some (calculateNextExecution monthlyAdvance now (some Frequency.hourly) 1),
      isActive := true }
  else if strIncludes lowerDesc "monthly" || strIncludes lowerDesc "every month" then
    { type := ScheduleType.recurring, frequency := some Frequency.monthly,
      interval := some 1,
      nextExecution := some (calculateNextExecution monthlyAdvance now (some Frequency.monthly) 1),
      isActive := true }
  else
    match scanIntervalPattern lowerDesc.toList with
    | some nu =>
        { type := ScheduleType.recurring, frequency := some nu.2,
          interval := some nu.1,
          nextExecution := some (calculateNextExecution monthlyAdvance now (some nu.2) nu.1),
          isActive := true }
    | none =>
        { type := ScheduleType.once, frequency := none, interval := none,
          nextExecution := none, isActive := false }

/-! ## Decision making -/

/-- `fallbackDecisionMaking(intent, context)`: the deterministic rule-based
decision, transcribing the sequential reassignments of the source. -/
def fallbackDecisionMaking (intent : AgentIntent) (context : MarketContext) :
    AgentDecision :=
  let gasPrice := context.gasPrice
  let amount := intent.amount
  let r1 : Bool × String × Int × String :=
    (true, "Conditions are favorable for execution", 80, "low")
  let r2 : Bool × String × Int × String :=
    if gasPrice > 50 then
      (false, "Gas price too high for efficient execution", 90,
       "high - expensive gas fees")
    else r1
  let r3 : Bool × String × Int × String :=
    if amount > 100 then
      (r2.1, r2.2.1, max (r2.2.2.1 - 20) 50, "medium - large transaction amount")
    else r2
  let r4 : Bool × String × Int × String :=
    if context.networkCongestion = Congestion.high then
      (false, "Network congestion too high, transaction may fail or be expensive",
       85, "high - network congestion")
    else r3
  { shouldExecute := r4.1, reasoning := r4.2.1, confidence := r4.2.2.1,
    riskAssessment := r4.2.2.2 }

/-- `queryGaiaLLM(intent, context)`: the provider call when configured, the
deterministic fallback when unconfigured or when the call fails.  The
function never throws. -/
def queryGaiaLLM (o : ExecOracles) (intent : AgentIntent) (context : MarketContext) :
    AgentDecision :=
  if o.llmConfigured = false then fallbackDecisionMaking intent context
  else
    match o.llmResult with
    | Except.ok d => d
    | Except.error _ => fallbackDecisionMaking intent context

/-! ## Transaction execution and the two pipeline entry points -/

/-- `executeTransaction(execution)`: permission lookup (with lazy expiry),
smart-account checks, the external transaction-service call, then
`recordSpend`.  The third component is the message of the rethrown error
when the TS method throws, `none` on success. -/
def executeTransaction (now : Int) (o : ExecOracles) (s : PMState)
    (e : AgentExecution) : AgentExecution × PMState × Option String :=
  let r := getPermission now s e.intent.permissionId
  match r.1 with
  | none =>
      let m := "Permission not found: " ++ e.intent.permissionId
      ({ e with
          status := ExecStatus.failed
          error := some m
          explanation := "Gasless transaction failed: " ++ m }, r.2, some m)
  | some p =>
      if o.saInitialized = false then
        let m := "Smart Account not initialized"
        ({ e with
            status := ExecStatus.failed
            error := some m
            explanation := "Gasless transaction failed: " ++ m }, r.2, some m)
      else
        let saId := p.smartAccountPermissionId.getD p.id
        if o.saHasPerm saId = false ∧ o.saHasPerm p.id = false then
          let m := "Smart Account permission not found: " ++ saId
          ({ e with
              status := ExecStatus.failed
              error := some m
              explanation := "Gasless transaction failed: " ++ m }, r.2, some m)
        else
          match o.execResult with
          | Except.error m =>
              ({ e with
                  status := ExecStatus.failed
                  error := some m
                  explanation := "Gasless transaction failed: " ++ m }, r.2, some m)
          | Except.ok tx =>
              let e1 := { e with
                transactionHash := some tx.hash
                status := ExecStatus.executed
                gasUsed := some (tx.gasUsed.getD "0")
                explanation := "Successfully executed gasless transaction: " ++
                  e.decision.reasoning }
              match recordSpend now r.2 e.intent.permissionId e.intent.amount tx.hash with
              | Except.ok s2 => (e1, s2, none)
              | Except.error m =>
                  ({ e1 with
                      status := ExecStatus.failed
                      error := some m
                      explanation := "Gasless transaction failed: " ++ m }, r.2, some m)

/-- `processIntent(intent)`: wallet check, schedule parsing and mutation of
the intent, the recurring-schedule registration (whose timer side effects
are outside the modelled state), then validation, market context, decision
and execution, with the outer catch folding any thrown error into the
execution record. -/
def processIntent (now : Int) (monthlyAdvance : Int → Nat → Int) (o : ExecOracles)
    (st : AEState) (execId : String) (intent0 : AgentIntent) :
    AgentExecution × AEState :=
  if o.walletConnected = false then
    let e : AgentExecution :=
      { id := execId
        intent := intent0
        decision :=
          { shouldExecute := false
            reasoning := "Wallet not connected"
            confidence := 0
            riskAssessment := "high" }
        status := ExecStatus.failed
        transactionHash := none
        timestamp := now
        explanation := "Cannot execute: Wallet not connected. Please connect your wallet first."
        gasUsed := none
        error := some "Wallet not connected" }
    (e, { st with executions := mapSet st.executions e.id e })
  else
    let sched := parseScheduleFromDescription monthlyAdvance now intent0.description
    let intent := { intent0 with schedule := some sched }
    let explanation0 :=
      if sched.type = ScheduleType.recurring ∧ sched.frequency.isSome then
        "Scheduled to run " ++ freqName (sched.frequency.getD Frequency.daily) ++
          ". First execution will be evaluated now."
      else ""
    let e1 : AgentExecution :=
      { id := execId
        intent := intent
        decision :=
          { shouldExecute := false
            reasoning := ""
            confidence := 0
            riskAssessment := "" }
        status := ExecStatus.pending
        transactionHash := none
        timestamp := now
        explanation := explanation0
        gasUsed := none
        error := none }
    let v := validateAction now st.pm intent.permissionId intent.tokenAddress
      intent.amount intent.contractAddress
    if v.1 = false then
      let e2 := { e1 with
        status := ExecStatus.blocked
        explanation := "Action blocked: Exceeds permission boundaries"
        decision := { e1.decision with reasoning :=
          "The requested action would violate one or more permission constraints (spend limit, time window, or contract restrictions)" } }
      (e2, { pm := v.2, executions := mapSet st.executions execId e2 })
    else
      match o.marketContext with
      | Except.error m =>
          let e2 := { e1 with
            status := ExecStatus.failed
            error := some m
            explanation := "Execution failed: " ++ m }
          (e2, { pm := v.2, executions := mapSet st.executions execId e2 })
      | Except.ok context =>
          let d := queryGaiaLLM o intent context
          let e2 := { e1 with decision := d }
          if d.shouldExecute then
            let t := executeTransaction now o v.2 e2
            match t.2.2 with
            | some m =>
                let e4 := { t.1 with
                  status := ExecStatus.failed
                  error := some m
                  explanation := "Execution failed: " ++ m }
                (e4, { pm := t.2.1, executions := mapSet st.executions execId e4 })
            | none =>
                (t.1, { pm := t.2.1, executions := mapSet st.executions execId t.1 })
          else
            let e3 := { e2 with
              status := ExecStatus.blocked
              explanation := "Agent declined to execute: " ++ d.reasoning }
            (e3, { pm := v.2, executions := mapSet st.executions execId e3 })

/-- `executeIntentDirectly(intent)`: the scheduled-tick pipeline.  The same
steps as `processIntent` minus the schedule parsing and registration
(transcribed separately, as the source duplicates the block), with its own
wallet-not-connected wording. -/
def executeIntentDirectly (now : Int) (o : ExecOracles) (st : AEState)
    (execId : String) (intent : AgentIntent) : AgentExecution × AEState :=
  if o.walletConnected = false then
    let e : AgentExecution :=
      { id := execId
        intent := intent
        decision :=
          { shouldExecute := false
            reasoning := "Wallet not connected"
            confidence := 0
            riskAssessment := "high" }
        status := ExecStatus.failed
        transactionHash := none
        timestamp := now
        explanation := "Cannot execute scheduled intent: Wallet not connected."
        gasUsed := none
        error := some "Wallet not connected" }
    (e, { st with executions := mapSet st.executions e.id e })
  else
    let e0 : AgentExecution :=
      { id := execId
        intent := intent
        decision :=
          { shouldExecute := false
            reasoning := ""
            confidence := 0
            riskAssessment := "" }
        status := ExecStatus.pending
        transactionHash := none
        timestamp := now
        explanation := ""
        gasUsed := none
        error := none }
    let v := validateAction now st.pm intent.permissionId intent.tokenAddress
      intent.amount intent.contractAddress
    if v.1 = false then
      let e2 := { e0 with
        status := ExecStatus.blocked
        explanation := "Action blocked: Exceeds permission boundaries"
        decision := { e0.decision with reasoning :=
          "The requested action would violate one or more permission constraints (spend limit, time window, or contract restrictions)" } }
      (e2, { pm := v.2, executions := mapSet st.executions execId e2 })
    else
      match o.marketContext with
      | Except.error m =>
          let e2 := { e0 with
            status := ExecStatus.failed
            error := some m
            explanation := "Execution failed: " ++ m }
          (e2, { pm := v.2, executions := mapSet st.executions execId e2 })
      | Except.ok context =>
          let d := queryGaiaLLM o intent context
          let e2 := { e0 with decision := d }
          if d.shouldExecute then
            let t := executeTransaction now o v.2 e2
            match t.2.2 with
            | some m =>
                let e4 := { t.1 with
                  status := ExecStatus.failed
                  error := some m
                  explanation := "Execution failed: " ++ m }
                (e4, { pm := t.2.1, executions := mapSet st.executions execId e4 })
            | none =>
                (t.1, { pm := t.2.1, executions := mapSet st.executions execId t.1 })
          else
            let e3 := { e2 with
              status := ExecStatus.blocked
              explanation := "Agent declined to execute: " ++ d.reasoning }
            (e3, { pm := v.2, executions := mapSet st.executions execId e3 })

/-! ## Read-effect lemmas for the lazy-expiry machinery -/

theorem updatePermissionStatus_spendTracking (now : Int) (s : PMState)
    (p : ERC7715Permission) :
    (updatePermissionStatus now s p).2.spendTracking = s.spendTracking := by
  unfold updatePermissionStatus
  split_ifs <;> rfl

theorem getPermission_spendTracking (now : Int) (s : PMState) (id : String) :
    (getPermission now s id).2.spendTracking = s.spendTracking := by
  unfold getPermission
  cases h : mapGet s.permissions id with
  | none => rfl
  | some p => simpa using updatePermissionStatus_spendTracking now s p

theorem getPermission_snd_of_fresh (now : Int) (s : PMState) (id : String)
    (p : ERC7715Permission) (hp : mapGet s.permissions id = some p)
    (hact : p.status = PermissionStatus.active) (hend : ¬ p.endTime < now) :
    getPermission now s id = (some p, s) := by
  unfold getPermission updatePermissionStatus
  rw [hp]
  simp [hact, hend]

theorem validateAction_snd (now : Int) (s : PMState) (pid tok : String) (amt : Rat)
    (c : String) :
    (validateAction now s pid tok amt c).2 = (getPermission now s pid).2 := by
  unfold validateAction
  cases h : (getPermission now s pid).1 with
  | none => simp [h]
  | some p =>
      simp only [h]
      split_ifs <;> rfl

/-! ## Characterization of validateAction -/

/-- The exact condition under which `validateAction` answers `true`: the
permission is stored and active after lazy expiry, token and contract match
case-insensitively, the projected spend stays within the limit whenever a
tracking record exists (an absent ledger passes vacuously), and `now` lies
in the time window. -/
def validationPasses (now : Int) (s : PMState) (permissionId tokenAddress : String)
    (amount : Rat) (contractAddress : String) : Prop :=
  ∃ p, mapGet s.permissions permissionId = some p ∧
    effectiveStatus now p = PermissionStatus.active ∧
    strToLower p.tokenAddress = strToLower tokenAddress ∧
    (∃ a ∈ p.allowedContracts, strToLower a = strToLower contractAddress) ∧
    (∀ t, mapGet s.spendTracking permissionId = some t →
      t.totalSpent + amount ≤ p.maxSpendAmount) ∧
    p.startTime ≤ now ∧ now ≤ p.endTime

theorem validateAction_true_iff (now : Int) (s : PMState) (pid tok : String)
    (amt : Rat) (c : String) :
    (validateAction now s pid tok amt c).1 = true ↔
      validationPasses now s pid tok amt c := by
  unfold validateAction getPermission updatePermissionStatus validationPasses
  cases h : mapGet s.permissions pid with
  | none => simp [h]
  | some p =>
      by_cases hrev : p.status = PermissionStatus.revoked
      · simp [h, hrev, effectiveStatus]
      · by_cases hexp : p.endTime < now
        · simp [h, hrev, hexp, effectiveStatus]
        · by_cases hact : p.status = PermissionStatus.active
          · by_cases htok : strToLower p.tokenAddress = strToLower tok
            · by_cases hcon : ∃ a ∈ p.allowedContracts, strToLower a = strToLower c
              · cases ht : mapGet s.spendTracking pid with
                | none =>
                    simp only [h, hrev, hexp, hact, htok, hcon, ht, effectiveStatus]
                    simp [h, hrev, hexp, hact, htok, hcon, ht, effectiveStatus]
                    constructor
                    · intro hw
                      split_ifs at hw with hs
                      exact ⟨not_lt.mp hs, not_lt.mp hexp⟩
                    · intro hw
                      have hs : ¬ now < p.startTime := not_lt.mpr hw.1
                      simp [hs]
                | some t =>
                    by_cases hspend : t.totalSpent + amt > p.maxSpendAmount
                    · simp [h, hrev, hexp, hact, htok, hcon, ht, effectiveStatus,
                        hspend]
                    · simp [h, hrev, hexp, hact, htok, hcon, ht, effectiveStatus,
                        hspend]
                      constructor
                      · intro hw
                        split_ifs at hw with hs
                        exact ⟨not_lt.mp hspend, not_lt.mp hs, not_lt.mp hexp⟩
                      · intro hw
                        have hs : ¬ now < p.startTime := not_lt.mpr hw.2.1
                        simp [hs]
              · simp [h, hrev, hexp, hact, htok, hcon, effectiveStatus]
            · simp [h, hrev, hexp, hact, htok, effectiveStatus]
          · simp [h, hrev, hexp, hact, effectiveStatus]

theorem validateAction_snd_cases (now : Int) (s : PMState) (pid tok : String)
    (amt : Rat) (c : String) :
    (validateAction now s pid tok amt c).2.spendTracking = s.spendTracking ∧
    ((validateAction now s pid tok amt c).2 = s ∨
      ∃ p, mapGet s.permissions pid = some p ∧
        p.status ≠ PermissionStatus.revoked ∧ p.endTime < now ∧
        (validateAction now s pid tok amt c).2 =
          { s with permissions :=
              mapSet s.permissions p.id { p with status := PermissionStatus.expired } }) := by
  rw [validateAction_snd]
  unfold getPermission updatePermissionStatus
  cases h : mapGet s.permissions pid with
  | none => simp
  | some p =>
      by_cases hrev : p.status = PermissionStatus.revoked
      · simp [hrev]
      · by_cases hexp : p.endTime < now
        · refine ⟨by simp [hrev, hexp], Or.inr ⟨p, rfl, hrev, hexp, ?_⟩⟩
          simp [hrev, hexp]
        · simp [hrev, hexp]

/-! ## Fixtures for concrete counterexamples and witnesses -/

instance {α β : Type} [DecidableEq α] [DecidableEq β] : DecidableEq (Except α β) :=
  fun a b =>
    match a, b with
    | Except.ok x, Except.ok y =>
        if h : x = y then isTrue (by rw [h]) else isFalse (by simp [h])
    | Except.error x, Except.error y =>
        if h : x = y then isTrue (by rw [h]) else isFalse (by simp [h])
    | Except.ok _, Except.error _ => isFalse (by simp)
    | Except.error _, Except.ok _ => isFalse (by simp)

/-- Fixture: an active permission with spend limit 100 and window [0, 1000]. -/
def cexPerm : ERC7715Permission :=
  { id := "p1", tokenAddress := "0xTok", maxSpendAmount := 100, startTime := 0,
    endTime := 1000, allowedContracts := ["0xCon"],
    status := PermissionStatus.active, grantedAt := 0, transactionHash := none,
    smartAccountPermissionId := none }

/-- Fixture: a store holding `cexPerm` but no spend-tracking record. -/
def cexStateNoTrack : PMState :=
  { permissions := [("p1", cexPerm)], spendTracking := [] }

/-- Fixture: a permission whose stored status is already expired. -/
def cexPermExpired : ERC7715Permission :=
  { cexPerm with id := "p2", status := PermissionStatus.expired }

/-- Fixture: a store holding only the stored-expired permission. -/
def cexStateExpired : PMState :=
  { permissions := [("p2", cexPermExpired)], spendTracking := [] }

/-! ## Claim C2 -/

/-- Claim C2 (amended): `validateAction` returns true iff the permission is
stored and active after the lazy-expiry check, the token matches
case-insensitively, the contract is in the allowlist case-insensitively,
the projected spend stays within `maxSpendAmount` whenever a spend-tracking
record exists — an absent ledger makes the spend-limit check pass vacuously
rather than fail — and now lies in `[startTime, endTime]`. -/
theorem c2_validateAction_boundary_iff (now : Int) (s : PMState) (pid tok : String)
    (amt : Rat) (c : String) :
    (validateAction now s pid tok amt c).1 = true ↔
      validationPasses now s pid tok amt c :=
  validateAction_true_iff now s pid tok amt c

/-- Claim C2 counterexample: the spend ledger for `p1` is absent and the
requested amount exceeds `maxSpendAmount` by far, yet `validateAction`
returns true — the claim as stated demands false whenever the ledger is
absent. -/
theorem c2_counterexample :
    mapGet cexStateNoTrack.spendTracking "p1" = none ∧
    (0 : Rat) + 999999 > cexPerm.maxSpendAmount ∧
    (validateAction 500 cexStateNoTrack "p1" "0xTok" 999999 "0xCon").1 = true := by
  refine ⟨rfl, by norm_num [cexPerm], by decide⟩

/-! ## Claim C7 -/

/-- Claim C7 (corrected): `validateAction` never modifies the spend ledger,
but it is not fully read-only — through `getPermission` it performs the
lazy-expiry write.  Its full state effect: the spend tracking is unchanged,
and the permission map is either unchanged or, when the looked-up permission
is unrevoked and past `endTime`, exactly that record's status is updated to
expired. -/
theorem c7_validateAction_frame (now : Int) (s : PMState) (pid tok : String)
    (amt : Rat) (c : String) :
    (validateAction now s pid tok amt c).2.spendTracking = s.spendTracking ∧
    ((validateAction now s pid tok amt c).2 = s ∨
      ∃ p, mapGet s.permissions pid = some p ∧
        p.status ≠ PermissionStatus.revoked ∧ p.endTime < now ∧
        (validateAction now s pid tok amt c).2 =
          { s with permissions :=
              mapSet s.permissions p.id { p with status := PermissionStatus.expired } }) :=
  validateAction_snd_cases now s pid tok amt c

/-- Claim C7 counterexample: calling `validateAction` past `endTime` flips
the stored status of `p1` from active to expired — the permission map is not
left exactly as it was, contradicting the pure/read-only claim. -/
theorem c7_counterexample :
    (mapGet cexStateNoTrack.permissions "p1").map (fun q => q.status) =
      some PermissionStatus.active ∧
    (mapGet (validateAction 2000 cexStateNoTrack "p1" "0xTok" 1 "0xCon").2.permissions
        "p1").map (fun q => q.status) = some PermissionStatus.expired := by
  exact ⟨by decide, by decide⟩

/-! ## Claim C6 -/

/-- Claim C6 (amended): `revokePermission` inspects only the stored status,
without applying lazy expiry: a missing permission rejects with
`Permission not found`; a stored status other than active rejects with
`Can only revoke active permissions`, leaving the store untouched; and a
stored-active permission is revoked successfully even when its `endTime`
already lies in the past. -/
theorem c6_revokePermission_stored_status (s : PMState) (id : String) :
    (mapGet s.permissions id = none →
      revokePermission true s id = Except.error "Permission not found") ∧
    (∀ p, mapGet s.permissions id = some p →
      (p.status ≠ PermissionStatus.active →
        revokePermission true s id = Except.error "Can only revoke active permissions") ∧
      (p.status = PermissionStatus.active →
        revokePermission true s id = Except.ok
          { s with permissions :=
              mapSet s.permissions id { p with status := PermissionStatus.revoked } })) := by
  unfold revokePermission
  constructor
  · intro h
    simp [h]
  · intro p hp
    constructor
    · intro hst
      simp [hp, hst]
    · intro hst
      simp [hp, hst]

/-- Claim C6 counterexample: at time 2000 the lazy-expiry evaluation of
`cexPerm` (endTime 1000, stored status active) is expired, so the claim
demands rejection, yet `revokePermission` succeeds and marks it revoked. -/
theorem c6_counterexample :
    effectiveStatus 2000 cexPerm ≠ PermissionStatus.active ∧
    revokePermission true cexStateNoTrack "p1" =
      Except.ok { permissions := [("p1", { cexPerm with status := PermissionStatus.revoked })],
                  spendTracking := [] } := by
  exact ⟨by decide, by decide⟩

/-- Claim C6 witness: the revocation of a stored-expired permission is
rejected with the StateError message (spec scenario D). -/
theorem c6_witness :
    revokePermission true cexStateExpired "p2" =
      Except.error "Can only revoke active permissions" := by
  have h := (c6_revokePermission_stored_status cexStateExpired "p2").2
    cexPermExpired (by decide)
  exact h.1 (by decide)

/-! ## Claim C1: the spend-ledger invariant -/

/-- The tracking record as `createPermission` initializes it. -/
def initialTracking (pid : String) (maxSpend : Rat) : SpendTracking :=
  { permissionId := pid, totalSpent := 0, remainingAllowance := maxSpend,
    spendEntries := [] }

/-- The tracking record as `recordSpend` rewrites it. -/
def spendTrackingAfter (now : Int) (t : SpendTracking) (a : Rat) (tx : String) :
    SpendTracking :=
  { t with
      totalSpent := t.totalSpent + a
      remainingAllowance := t.remainingAllowance - a
      spendEntries := t.spendEntries ++
        [{ timestamp := now, amount := a, transactionHash := tx,
           remainingAfter := t.remainingAllowance - a }] }

theorem createPermission_ok_tracking (conn : Bool) (g : GrantOracle) (now : Int)
    (pid : String) (s : PMState) (req : PermissionRequest)
    (p : ERC7715Permission) (s1 : PMState)
    (h : createPermission conn g now pid s req = Except.ok (p, s1)) :
    p.id = pid ∧ p.maxSpendAmount = req.maxSpendAmount ∧
    s1.spendTracking =
      mapSet s.spendTracking pid (initialTracking pid req.maxSpendAmount) := by
  unfold createPermission at h
  by_cases hc : conn = false
  · rw [if_pos hc] at h
    cases h
  · rw [if_neg hc] at h
    cases hv : validatePermissionRequest req with
    | some msg =>
        rw [hv] at h
        cases h
    | none =>
        rw [hv] at h
        by_cases hsa : g.saInitialized = false
        · rw [if_pos hsa] at h
          cases h
        · rw [if_neg hsa] at h
          cases hg : g.grantResult with
          | error m =>
              rw [hg] at h
              cases h
          | ok saPermId =>
              rw [hg] at h
              cases h
              exact ⟨rfl, rfl, rfl⟩

theorem recordSpend_ok_eq (now : Int) (s : PMState) (pid : String) (a : Rat)
    (tx : String) (t : SpendTracking)
    (h : mapGet s.spendTracking pid = some t) :
    recordSpend now s pid a tx = Except.ok
      { s with spendTracking :=
          mapSet s.spendTracking pid (spendTrackingAfter now t a tx) } := by
  unfold recordSpend spendTrackingAfter
  rw [h]

theorem recordSpend_ok_cases (now : Int) (s : PMState) (pid : String) (a : Rat)
    (tx : String) (s1 : PMState)
    (h : recordSpend now s pid a tx = Except.ok s1) :
    ∃ t, mapGet s.spendTracking pid = some t ∧
      s1 = { s with spendTracking :=
               mapSet s.spendTracking pid (spendTrackingAfter now t a tx) } := by
  unfold recordSpend at h
  cases hm : mapGet s.spendTracking pid with
  | none =>
      rw [hm] at h
      cases h
  | some t =>
      rw [hm] at h
      cases h
      exact ⟨t, rfl, rfl⟩

/-- Preservation of `totalSpent + remainingAllowance = M` across a sequence
of successful `recordSpend` calls. -/
theorem recordSpendSeq_sum_invariant (spends : List (Rat × String)) :
    ∀ (now : Int) (s : PMState) (pid : String) (s2 : PMState) (M : Rat),
    (∀ t, mapGet s.spendTracking pid = some t →
      t.totalSpent + t.remainingAllowance = M) →
    recordSpendSeq now s pid spends = Except.ok s2 →
    (∀ t, mapGet s2.spendTracking pid = some t →
      t.totalSpent + t.remainingAllowance = M) := by
  induction spends with
  | nil =>
      intro now s pid s2 M hinv hrun
      unfold recordSpendSeq at hrun
      cases hrun
      exact hinv
  | cons ah rest ih =>
      intro now s pid s2 M hinv hrun
      obtain ⟨a, h⟩ := ah
      unfold recordSpendSeq at hrun
      cases hr : recordSpend now s pid a h with
      | error m =>
          rw [hr] at hrun
          cases hrun
      | ok s1 =>
          rw [hr] at hrun
          obtain ⟨t, hmt, hs1⟩ := recordSpend_ok_cases now s pid a h s1 hr
          refine ih now s1 pid s2 M ?_ hrun
          intro t1 ht1
          rw [hs1] at ht1
          simp only [mapGet_mapSet_self] at ht1
          have hsum := hinv t hmt
          have ht2 := Option.some.inj ht1
          rw [← ht2]
          unfold spendTrackingAfter
          dsimp only
          linarith

/-- Claim C1: `createPermission` initializes spend tracking with
`totalSpent = 0` and `remainingAllowance = maxSpendAmount`; each successful
`recordSpend` adds the spent amount to `totalSpent` and subtracts the same
amount from `remainingAllowance`; consequently, after any sequence of
`recordSpend` calls against a created permission, the ledger satisfies
`totalSpent + remainingAllowance = maxSpendAmount` exactly — in particular
within the 1e-6 tolerance the claim allows. -/
theorem c1_ledger_invariant :
    (∀ (conn : Bool) (g : GrantOracle) (now : Int) (pid : String) (s : PMState)
        (req : PermissionRequest) (p : ERC7715Permission) (s1 : PMState),
      createPermission conn g now pid s req = Except.ok (p, s1) →
      mapGet s1.spendTracking p.id =
        some (initialTracking p.id p.maxSpendAmount)) ∧
    (∀ (now : Int) (s : PMState) (pid : String) (a : Rat) (tx : String)
        (s1 : PMState) (t t1 : SpendTracking),
      mapGet s.spendTracking pid = some t →
      recordSpend now s pid a tx = Except.ok s1 →
      mapGet s1.spendTracking pid = some t1 →
      t1.totalSpent = t.totalSpent + a ∧
      t1.remainingAllowance = t.remainingAllowance - a) ∧
    (∀ (conn : Bool) (g : GrantOracle) (now : Int) (pid : String) (s : PMState)
        (req : PermissionRequest) (p : ERC7715Permission) (s1 : PMState)
        (spends : List (Rat × String)) (s2 : PMState) (t : SpendTracking),
      createPermission conn g now pid s req = Except.ok (p, s1) →
      recordSpendSeq now s1 p.id spends = Except.ok s2 →
      mapGet s2.spendTracking p.id = some t →
      t.totalSpent + t.remainingAllowance = p.maxSpendAmount ∧
      |t.totalSpent + t.remainingAllowance - p.maxSpendAmount| ≤ 1 / 1000000) := by
  refine ⟨?_, ?_, ?_⟩
  · intro conn g now pid s req p s1 h
    obtain ⟨hid, hmax, htr⟩ := createPermission_ok_tracking conn g now pid s req p s1 h
    rw [htr, hid, hmax]
    simp
  · intro now s pid a tx s1 t t1 hmt hr ht1
    rw [recordSpend_ok_eq now s pid a tx t hmt] at hr
    cases hr
    simp only [mapGet_mapSet_self] at ht1
    have ht2 := Option.some.inj ht1
    rw [← ht2]
    unfold spendTrackingAfter
    exact ⟨rfl, rfl⟩
  · intro conn g now pid s req p s1 spends s2 t hcr hseq hmt
    obtain ⟨hid, hmax, htr⟩ := createPermission_ok_tracking conn g now pid s req p s1 hcr
    have hbase : ∀ t0, mapGet s1.spendTracking p.id = some t0 →
        t0.totalSpent + t0.remainingAllowance = p.maxSpendAmount := by
      intro t0 ht0
      rw [htr, hid] at ht0
      simp only [mapGet_mapSet_self] at ht0
      have ht2 := Option.some.inj ht0
      rw [← ht2]
      unfold initialTracking
      dsimp only
      rw [hmax]
      ring
    have hsum := recordSpendSeq_sum_invariant spends now s1 p.id s2 p.maxSpendAmount
      hbase hseq t hmt
    refine ⟨hsum, ?_⟩
    rw [hsum]
    simp

/-! Witness fixtures for the pipeline and ledger claims. -/

def waddrA : String := "0xaaaaaaaaaaaaaaaaaaaaaaaaaaaaaaaaaaaaaaaa"

def waddrB : String := "0xbbbbbbbbbbbbbbbbbbbbbbbbbbbbbbbbbbbbbbbb"

def wfReq : PermissionRequest :=
  { tokenAddress := waddrA, maxSpendAmount := 100, startTime := 0,
    endTime := 1000, allowedContracts := [waddrB] }

def wfGrant : GrantOracle :=
  { saInitialized := true, grantResult := Except.ok "sa1", txHash := "0xfeed" }

def wPerm : ERC7715Permission :=
  { id := "permW", tokenAddress := waddrA, maxSpendAmount := 100, startTime := 0,
    endTime := 1000, allowedContracts := [waddrB],
    status := PermissionStatus.active, grantedAt := 5,
    transactionHash := some "0xfeed", smartAccountPermissionId := some "sa1" }

def wState1 : PMState :=
  { permissions := [("permW", wPerm)],
    spendTracking := [("permW", initialTracking "permW" 100)] }

def wTrack : SpendTracking :=
  { permissionId := "permW", totalSpent := 40, remainingAllowance := 60,
    spendEntries := [{ timestamp := 5, amount := 40, transactionHash := "t1",
                       remainingAfter := 60 }] }

def wState2 : PMState :=
  { permissions := [("permW", wPerm)], spendTracking := [("permW", wTrack)] }

/-- Claim C1 witness: one concrete created permission and one recorded spend
of 40 against limit 100, with the invariant evaluated. -/
theorem c1_ledger_invariant_witness :
    wTrack.totalSpent + wTrack.remainingAllowance = wPerm.maxSpendAmount ∧
    |wTrack.totalSpent + wTrack.remainingAllowance - wPerm.maxSpendAmount| ≤
      1 / 1000000 :=
  c1_ledger_invariant.2.2 true wfGrant 5 "permW"
    { permissions := [], spendTracking := [] } wfReq wPerm wState1
    [(40, "t1")] wState2 wTrack (by decide)
    (by simp only [recordSpendSeq, recordSpend, wState1, wState2, wTrack, wPerm,
          initialTracking, mapGet, mapSet, spendTrackingAfter]
        norm_num)
    (by decide)
/-! ## Claim C5: the deterministic fallback decision -/

/-- Witness fixtures: a plain intent and a market snapshot with gas 60. -/
def wIntent : AgentIntent :=
  { description := "swap tokens", tokenAddress := "0xTok", amount := 10,
    contractAddress := "0xCon", permissionId := "p1", schedule := none }

def wCtx60 : MarketContext :=
  { gasPrice := 60, tokenPrice := 2000, networkCongestion := Congestion.low,
    timestamp := 0 }

/-- Claim C5: when the reasoning provider is unconfigured or its call fails,
the decision is the deterministic fallback, and the fallback is bit-exact
per the rules applied in source order — start favorable (confidence 80, risk
low); gas above 50 flips to decline with the gas reasoning (confidence 90);
amounts above 100 lower confidence by 20 (floor 50) and relabel the risk;
high congestion overrides with the congestion verdict (confidence 85).  The
closed form below is the unique outcome of those rules.  With gas 60 the
verdict declines, and outside the congestion override the reasoning contains
"Gas price too high".  Being a total function, the fallback never throws. -/
theorem c5_fallback_decision :
    (∀ (o : ExecOracles) (intent : AgentIntent) (ctx : MarketContext),
      (o.llmConfigured = false ∨ ∃ m, o.llmResult = Except.error m) →
      queryGaiaLLM o intent ctx = fallbackDecisionMaking intent ctx) ∧
    (∀ (intent : AgentIntent) (ctx : MarketContext),
      fallbackDecisionMaking intent ctx =
        if ctx.networkCongestion = Congestion.high then
          { shouldExecute := false
            reasoning := "Network congestion too high, transaction may fail or be expensive"
            confidence := 85
            riskAssessment := "high - network congestion" }
        else if ctx.gasPrice > 50 then
          { shouldExecute := false
            reasoning := "Gas price too high for efficient execution"
            confidence := if intent.amount > 100 then 70 else 90
            riskAssessment := if intent.amount > 100 then
              "medium - large transaction amount" else "high - expensive gas fees" }
        else
          { shouldExecute := true
            reasoning := "Conditions are favorable for execution"
            confidence := if intent.amount > 100 then 60 else 80
            riskAssessment := if intent.amount > 100 then
              "medium - large transaction amount" else "low" }) ∧
    (∀ (intent : AgentIntent) (ctx : MarketContext),
      ctx.gasPrice = 60 →
      (fallbackDecisionMaking intent ctx).shouldExecute = false ∧
      (ctx.networkCongestion ≠ Congestion.high →
        strIncludes (fallbackDecisionMaking intent ctx).reasoning
          "Gas price too high" = true)) := by
  have hclosed : ∀ (intent : AgentIntent) (ctx : MarketContext),
      fallbackDecisionMaking intent ctx =
        if ctx.networkCongestion = Congestion.high then
          { shouldExecute := false
            reasoning := "Network congestion too high, transaction may fail or be expensive"
            confidence := 85
            riskAssessment := "high - network congestion" }
        else if ctx.gasPrice > 50 then
          { shouldExecute := false
            reasoning := "Gas price too high for efficient execution"
            confidence := if intent.amount > 100 then 70 else 90
            riskAssessment := if intent.amount > 100 then
              "medium - large transaction amount" else "high - expensive gas fees" }
        else
          { shouldExecute := true
            reasoning := "Conditions are favorable for execution"
            confidence := if intent.amount > 100 then 60 else 80
            riskAssessment := if intent.amount > 100 then
              "medium - large transaction amount" else "low" } := by
    intro intent ctx
    unfold fallbackDecisionMaking
    by_cases hc : ctx.networkCongestion = Congestion.high <;>
      by_cases hg : ctx.gasPrice > 50 <;>
        by_cases ha : intent.amount > 100 <;>
          simp [hc, hg, ha]
  refine ⟨?_, hclosed, ?_⟩
  · intro o intent ctx hfail
    unfold queryGaiaLLM
    rcases hfail with hcfg | ⟨m, herr⟩
    · rw [hcfg]
      simp
    · cases hcfg : o.llmConfigured
      · simp
      · simp [herr]
  · intro intent ctx hg
    rw [hclosed intent ctx]
    have hgt : ctx.gasPrice > 50 := by rw [hg]; norm_num
    by_cases hc : ctx.networkCongestion = Congestion.high
    · simp [hc]
    · refine ⟨by simp [hc, hgt], fun _ => ?_⟩
      simp only [hc, hgt, if_neg, if_pos, ite_false, ite_true]
      decide

/-- Claim C5 witness: provider unconfigured, gas 60, low congestion — the
fallback declines with the gas-price reasoning. -/
theorem c5_fallback_decision_witness :
    (fallbackDecisionMaking wIntent wCtx60).shouldExecute = false ∧
    strIncludes (fallbackDecisionMaking wIntent wCtx60).reasoning
      "Gas price too high" = true := by
  have h := c5_fallback_decision.2.2 wIntent wCtx60 (by norm_num [wCtx60])
  exact ⟨h.1, h.2 (by decide)⟩
/-! ## Claim C8: schedule parsing -/

/-- The recurring schedule each positive parse branch builds. -/
def recurringSchedule (mA : Int → Nat → Int) (now : Int) (f : Frequency)
    (i : Nat) : AgentSchedule :=
  { type := ScheduleType.recurring, frequency := some f, interval := some i,
    nextExecution := some (calculateNextExecution mA now (some f) i),
    isActive := true }

/-- Claim C8: `parseScheduleFromDescription` resolves by the source priority,
first match winning, over the lowercased description: the minutely phrases,
then daily, weekly, hourly, monthly phrases, then the generic
`every N unit` pattern, and a one-time inactive schedule when nothing
matches; and `"every 3 days"` produces a recurring daily schedule with
interval 3 whose next execution is exactly now plus 3 times 86400 seconds. -/
theorem c8_parse_schedule_priority (mA : Int → Nat → Int) (now : Int) (d : String) :
    ((strIncludes (strToLower d) "every minute" ||
      strIncludes (strToLower d) "per minute") = true →
      parseScheduleFromDescription mA now d =
        recurringSchedule mA now Frequency.minutely 1) ∧
    ((strIncludes (strToLower d) "every minute" ||
      strIncludes (strToLower d) "per minute") = false →
     (strIncludes (strToLower d) "daily" ||
      strIncludes (strToLower d) "every day") = true →
      parseScheduleFromDescription mA now d =
        recurringSchedule mA now Frequency.daily 1) ∧
    ((strIncludes (strToLower d) "every minute" ||
      strIncludes (strToLower d) "per minute") = false →
     (strIncludes (strToLower d) "daily" ||
      strIncludes (strToLower d) "every day") = false →
     (strIncludes (strToLower d) "weekly" ||
      strIncludes (strToLower d) "every week") = true →
      parseScheduleFromDescription mA now d =
        recurringSchedule mA now Frequency.weekly 1) ∧
    ((strIncludes (strToLower d) "every minute" ||
      strIncludes (strToLower d) "per minute") = false →
     (strIncludes (strToLower d) "daily" ||
      strIncludes (strToLower d) "every day") = false →
     (strIncludes (strToLower d) "weekly" ||
      strIncludes (strToLower d) "every week") = false →
     (strIncludes (strToLower d) "hourly" ||
      strIncludes (strToLower d) "every hour") = true →
      parseScheduleFromDescription mA now d =
        recurringSchedule mA now Frequency.hourly 1) ∧
    ((strIncludes (strToLower d) "every minute" ||
      strIncludes (strToLower d) "per minute") = false →
     (strIncludes (strToLower d) "daily" ||
      strIncludes (strToLower d) "every day") = false →
     (strIncludes (strToLower d) "weekly" ||
      strIncludes (strToLower d) "every week") = false →
     (strIncludes (strToLower d) "hourly" ||
      strIncludes (strToLower d) "every hour") = false →
     (strIncludes (strToLower d) "monthly" ||
      strIncludes (strToLower d) "every month") = true →
      parseScheduleFromDescription mA now d =
        recurringSchedule mA now Frequency.monthly 1) ∧
    ((strIncludes (strToLower d) "every minute" ||
      strIncludes (strToLower d) "per minute") = false →
     (strIncludes (strToLower d) "daily" ||
      strIncludes (strToLower d) "every day") = false →
     (strIncludes (strToLower d) "weekly" ||
      strIncludes (strToLower d) "every week") = false →
     (strIncludes (strToLower d) "hourly" ||
      strIncludes (strToLower d) "every hour") = false →
     (strIncludes (strToLower d) "monthly" ||
      strIncludes (strToLower d) "every month") = false →
      (∀ (n : Nat) (u : Frequency),
        scanIntervalPattern (strToLower d).toList = some (n, u) →
        parseScheduleFromDescription mA now d = recurringSchedule mA now u n) ∧
      (scanIntervalPattern (strToLower d).toList = none →
        parseScheduleFromDescription mA now d =
          { type := ScheduleType.once, frequency := none, interval := none,
            nextExecution := none, isActive := false })) ∧
    parseScheduleFromDescription mA now "every 3 days" =
      { type := ScheduleType.recurring, frequency := some Frequency.daily,
        interval := some 3, nextExecution := some (now + 3 * 86400 * 1000),
        isActive := true } := by
  refine ⟨?_, ?_, ?_, ?_, ?_, ?_, ?_⟩
  · intro h1
    unfold parseScheduleFromDescription recurringSchedule
    simp [h1]
  · intro h1 h2
    unfold parseScheduleFromDescription recurringSchedule
    simp [h1, h2]
  · intro h1 h2 h3
    unfold parseScheduleFromDescription recurringSchedule
    simp [h1, h2, h3]
  · intro h1 h2 h3 h4
    unfold parseScheduleFromDescription recurringSchedule
    simp [h1, h2, h3, h4]
  · intro h1 h2 h3 h4 h5
    unfold parseScheduleFromDescription recurringSchedule
    simp [h1, h2, h3, h4, h5]
  · intro h1 h2 h3 h4 h5
    constructor
    · intro n u hscan
      unfold parseScheduleFromDescription recurringSchedule
      simp only [String.toList] at hscan
      simp [h1, h2, h3, h4, h5, hscan]
    · intro hscan
      unfold parseScheduleFromDescription
      simp only [String.toList] at hscan
      simp [h1, h2, h3, h4, h5, hscan]
  · have hm : (strIncludes (strToLower "every 3 days") "every minute" ||
        strIncludes (strToLower "every 3 days") "per minute") = false := by decide
    have hd : (strIncludes (strToLower "every 3 days") "daily" ||
        strIncludes (strToLower "every 3 days") "every day") = false := by decide
    have hw : (strIncludes (strToLower "every 3 days") "weekly" ||
        strIncludes (strToLower "every 3 days") "every week") = false := by decide
    have hh : (strIncludes (strToLower "every 3 days") "hourly" ||
        strIncludes (strToLower "every 3 days") "every hour") = false := by decide
    have hmo : (strIncludes (strToLower "every 3 days") "monthly" ||
        strIncludes (strToLower "every 3 days") "every month") = false := by decide
    have hscan : scanIntervalPattern (strToLower "every 3 days").toList =
        some (3, Frequency.daily) := by decide
    unfold parseScheduleFromDescription
    simp only [hm, hd, hw, hh, hmo, hscan, Bool.false_eq_true, if_false]
    unfold calculateNextExecution
    norm_num

/-- A trivial stand-in for the calendar-month advance used in witnesses. -/
def wMonthlyAdvance : Int → Nat → Int := fun n _ => n

/-- Claim C8 witness: the daily phrase branch applied to a concrete
description. -/
theorem c8_parse_schedule_priority_witness :
    parseScheduleFromDescription wMonthlyAdvance 0 "buy eth daily" =
      recurringSchedule wMonthlyAdvance 0 Frequency.daily 1 :=
  (c8_parse_schedule_priority wMonthlyAdvance 0 "buy eth daily").2.1
    (by decide) (by decide)
/-! ## Claim C10: wallet-not-connected short circuit -/

/-- Claim C10: when the wallet manager reports not connected, both
`processIntent` and the scheduled path `executeIntentDirectly` return (never
throw — they are total functions here) a failed execution with error
`Wallet not connected` and a declining decision of confidence 0, record it
in the execution history, and leave the permission-manager state untouched;
the result is the same for every market/decision/execution collaborator
outcome, so neither `validateAction` nor the decision step can have been
consulted. -/
theorem c10_wallet_not_connected (now : Int) (mA : Int → Nat → Int)
    (o : ExecOracles) (st : AEState) (execId : String) (intent : AgentIntent)
    (h : o.walletConnected = false) :
    (processIntent now mA o st execId intent).1.status = ExecStatus.failed ∧
    (processIntent now mA o st execId intent).1.error = some "Wallet not connected" ∧
    (processIntent now mA o st execId intent).1.decision.shouldExecute = false ∧
    (processIntent now mA o st execId intent).1.decision.confidence = 0 ∧
    (processIntent now mA o st execId intent).2.pm = st.pm ∧
    (processIntent now mA o st execId intent).2.executions =
      mapSet st.executions execId (processIntent now mA o st execId intent).1 ∧
    (executeIntentDirectly now o st execId intent).1.status = ExecStatus.failed ∧
    (executeIntentDirectly now o st execId intent).1.error =
      some "Wallet not connected" ∧
    (executeIntentDirectly now o st execId intent).1.decision.shouldExecute = false ∧
    (executeIntentDirectly now o st execId intent).1.decision.confidence = 0 ∧
    (executeIntentDirectly now o st execId intent).2.pm = st.pm ∧
    (executeIntentDirectly now o st execId intent).2.executions =
      mapSet st.executions execId (executeIntentDirectly now o st execId intent).1 := by
  unfold processIntent executeIntentDirectly
  simp [h]

/-- Claim C10 witness: a concrete disconnected run of both entry points. -/
theorem c10_wallet_not_connected_witness :
    (processIntent 0 wMonthlyAdvance
        { walletConnected := false, marketContext := Except.error "down",
          llmConfigured := false, llmResult := Except.error "down",
          saInitialized := false, saHasPerm := fun _ => false,
          execResult := Except.error "down" }
        { pm := { permissions := [], spendTracking := [] }, executions := [] }
        "e1" wIntent).1.status = ExecStatus.failed ∧
    (executeIntentDirectly 0
        { walletConnected := false, marketContext := Except.error "down",
          llmConfigured := false, llmResult := Except.error "down",
          saInitialized := false, saHasPerm := fun _ => false,
          execResult := Except.error "down" }
        { pm := { permissions := [], spendTracking := [] }, executions := [] }
        "e1" wIntent).1.error = some "Wallet not connected" := by
  have h := c10_wallet_not_connected 0 wMonthlyAdvance
    { walletConnected := false, marketContext := Except.error "down",
      llmConfigured := false, llmResult := Except.error "down",
      saInitialized := false, saHasPerm := fun _ => false,
      execResult := Except.error "down" }
    { pm := { permissions := [], spendTracking := [] }, executions := [] }
    "e1" wIntent rfl
  exact ⟨h.1, h.2.2.2.2.2.2.2.1⟩
/-! ## Claim C4: failures after validation record no partial spend -/

theorem effectiveStatus_active (now : Int) (p : ERC7715Permission) :
    effectiveStatus now p = PermissionStatus.active ↔
      p.status = PermissionStatus.active ∧ ¬ p.endTime < now := by
  unfold effectiveStatus
  split_ifs with h1 h2 <;> simp_all

theorem validateAction_true_state (now : Int) (s : PMState) (pid tok : String)
    (amt : Rat) (c : String)
    (h : (validateAction now s pid tok amt c).1 = true) :
    ∃ p, mapGet s.permissions pid = some p ∧
      p.status = PermissionStatus.active ∧ ¬ p.endTime < now ∧
      getPermission now s pid = (some p, s) ∧
      (validateAction now s pid tok amt c).2 = s := by
  obtain ⟨p, hp, heff, _⟩ := (validateAction_true_iff now s pid tok amt c).mp h
  obtain ⟨hact, hend⟩ := (effectiveStatus_active now p).mp heff
  have hg := getPermission_snd_of_fresh now s pid p hp hact hend
  refine ⟨p, hp, hact, hend, hg, ?_⟩
  rw [validateAction_snd, hg]

theorem queryGaiaLLM_schedule (o : ExecOracles) (intent : AgentIntent)
    (sch : Option AgentSchedule) (ctx : MarketContext) :
    queryGaiaLLM o { intent with schedule := sch } ctx =
      queryGaiaLLM o intent ctx := rfl

/-- Claim C4: after validation passed, if the market-context gathering step
raises, or the external execution call raises (with the decision approving
and the smart-account lookups succeeding), the execution ends failed with
the error message captured in `error` and `explanation`, and the spend
ledger is exactly what it was before the run.  The decision query itself
cannot raise: `queryGaiaLLM` converts provider failures into the fallback. -/
theorem c4_failure_no_partial_spend (now : Int) (mA : Int → Nat → Int)
    (o : ExecOracles) (st : AEState) (execId : String) (intent : AgentIntent)
    (m : String)
    (hconn : o.walletConnected = true)
    (hval : (validateAction now st.pm intent.permissionId intent.tokenAddress
      intent.amount intent.contractAddress).1 = true)
    (hstep : o.marketContext = Except.error m ∨
      ((∃ ctx, o.marketContext = Except.ok ctx ∧
          (queryGaiaLLM o intent ctx).shouldExecute = true) ∧
        o.saInitialized = true ∧ (∀ x, o.saHasPerm x = true) ∧
        o.execResult = Except.error m)) :
    (processIntent now mA o st execId intent).1.status = ExecStatus.failed ∧
    (processIntent now mA o st execId intent).1.error = some m ∧
    (processIntent now mA o st execId intent).1.explanation =
      "Execution failed: " ++ m ∧
    (processIntent now mA o st execId intent).2.pm.spendTracking =
      st.pm.spendTracking := by
  obtain ⟨p, hp, hact, hend, hg, hs⟩ := validateAction_true_state now st.pm
    intent.permissionId intent.tokenAddress intent.amount intent.contractAddress hval
  unfold processIntent
  rcases hstep with hctx | ⟨⟨ctx, hctx, hd⟩, hsa, hperm, hexec⟩
  · simp [hconn, hval, hctx, hs]
  · simp only [hconn, Bool.true_eq_false, if_false, hval, hctx, hd,
      queryGaiaLLM_schedule]
    unfold executeTransaction
    simp [hval, hs, hg, hsa, hperm, hexec, hd, queryGaiaLLM_schedule]
/-! ## Pipeline fixtures -/

/-- An intent matching `cexPerm` exactly. -/
def cexIntent : AgentIntent :=
  { description := "swap tokens", tokenAddress := "0xTok", amount := 5,
    contractAddress := "0xCon", permissionId := "p1", schedule := none }

def wCtxLow : MarketContext :=
  { gasPrice := 20, tokenPrice := 2000, networkCongestion := Congestion.low,
    timestamp := 0 }

/-- Collaborators for a failing market-context gathering step. -/
def wOracleMarketDown : ExecOracles :=
  { walletConnected := true, marketContext := Except.error "market down",
    llmConfigured := false, llmResult := Except.error "unused",
    saInitialized := true, saHasPerm := fun _ => true,
    execResult := Except.error "unused" }

/-- Collaborators for a fully succeeding run: approving decision, succeeding
external execution returning hash `0xabc`. -/
def wOracleExecOk : ExecOracles :=
  { walletConnected := true, marketContext := Except.ok wCtxLow,
    llmConfigured := true,
    llmResult := Except.ok
      { shouldExecute := true, reasoning := "approve", confidence := 90,
        riskAssessment := "low" },
    saInitialized := true, saHasPerm := fun _ => true,
    execResult := Except.ok { hash := "0xabc", gasUsed := some "21000" } }

/-- The store with `cexPerm` and its properly initialized spend ledger. -/
def cexStateTrack : PMState :=
  { permissions := [("p1", cexPerm)],
    spendTracking := [("p1", initialTracking "p1" 100)] }

/-- Claim C4 witness: a concrete run whose market-context step raises. -/
theorem c4_failure_no_partial_spend_witness :
    (processIntent 500 wMonthlyAdvance wOracleMarketDown
      { pm := cexStateNoTrack, executions := [] } "e1" cexIntent).1.status =
        ExecStatus.failed ∧
    (processIntent 500 wMonthlyAdvance wOracleMarketDown
      { pm := cexStateNoTrack, executions := [] } "e1" cexIntent).1.error =
        some "market down" ∧
    (processIntent 500 wMonthlyAdvance wOracleMarketDown
      { pm := cexStateNoTrack, executions := [] } "e1" cexIntent).2.pm.spendTracking =
      cexStateNoTrack.spendTracking := by
  have h := c4_failure_no_partial_spend 500 wMonthlyAdvance wOracleMarketDown
    { pm := cexStateNoTrack, executions := [] } "e1" cexIntent "market down"
    rfl (by decide) (Or.inl rfl)
  exact ⟨h.1, h.2.1, h.2.2.2⟩

/-! ## Claim C3: the executed path records the spend exactly once -/

/-- Claim C3 (amended): when the wallet is connected, validation passes, the
decision approves, the smart-account lookups succeed, the external execution
call returns a transaction result, and — the amendment — the spend ledger for
the permission exists, the pipeline ends with status executed carrying that
transaction reference, and the ledger is rewritten by exactly one
`recordSpend` of the intent amount and that reference: `totalSpent` grows by
the amount and exactly one new `SpendEntry` with that hash is appended,
while the permission map is untouched. -/
theorem c3_executed_records_spend (now : Int) (mA : Int → Nat → Int)
    (o : ExecOracles) (st : AEState) (execId : String) (intent : AgentIntent)
    (ctx : MarketContext) (tx : TxResult) (tr : SpendTracking)
    (hconn : o.walletConnected = true)
    (hval : (validateAction now st.pm intent.permissionId intent.tokenAddress
      intent.amount intent.contractAddress).1 = true)
    (htr : mapGet st.pm.spendTracking intent.permissionId = some tr)
    (hctx : o.marketContext = Except.ok ctx)
    (hd : (queryGaiaLLM o intent ctx).shouldExecute = true)
    (hsa : o.saInitialized = true)
    (hperm : ∀ x, o.saHasPerm x = true)
    (hexec : o.execResult = Except.ok tx) :
    (processIntent now mA o st execId intent).1.status = ExecStatus.executed ∧
    (processIntent now mA o st execId intent).1.transactionHash = some tx.hash ∧
    (processIntent now mA o st execId intent).2.pm.permissions =
      st.pm.permissions ∧
    (processIntent now mA o st execId intent).2.pm.spendTracking =
      mapSet st.pm.spendTracking intent.permissionId
        (spendTrackingAfter now tr intent.amount tx.hash) ∧
    (processIntent now mA o st execId intent).2.executions =
      mapSet st.executions execId (processIntent now mA o st execId intent).1 := by
  obtain ⟨p, hp, hact, hend, hg, hs⟩ := validateAction_true_state now st.pm
    intent.permissionId intent.tokenAddress intent.amount intent.contractAddress hval
  have hrs := recordSpend_ok_eq now st.pm intent.permissionId intent.amount
    tx.hash tr htr
  unfold processIntent
  simp only [hconn, Bool.true_eq_false, if_false, hval, hctx, hd,
    queryGaiaLLM_schedule]
  unfold executeTransaction
  simp [hval, hs, hg, hsa, hperm, hexec, hd, queryGaiaLLM_schedule, hrs]

/-- Claim C3 counterexample: all of the claim's premises hold (validation
true, approving decision, external execution returns `0xabc`) but the spend
ledger is absent, so `recordSpend` throws after the external call: the run
ends failed, not executed, and no spend is recorded. -/
theorem c3_counterexample :
    (validateAction 500 cexStateNoTrack "p1" "0xTok" 5 "0xCon").1 = true ∧
    (processIntent 500 wMonthlyAdvance wOracleExecOk
      { pm := cexStateNoTrack, executions := [] } "e1" cexIntent).1.status =
        ExecStatus.failed ∧
    (processIntent 500 wMonthlyAdvance wOracleExecOk
      { pm := cexStateNoTrack, executions := [] } "e1" cexIntent).1.error =
        some "Spend tracking not found for permission" ∧
    (processIntent 500 wMonthlyAdvance wOracleExecOk
      { pm := cexStateNoTrack, executions := [] } "e1" cexIntent).2.pm.spendTracking =
      cexStateNoTrack.spendTracking := by
  exact ⟨by decide, by decide, by decide, by decide⟩

/-- Claim C3 witness: the full succeeding run against the properly
initialized ledger. -/
theorem c3_executed_records_spend_witness :
    (processIntent 500 wMonthlyAdvance wOracleExecOk
      { pm := cexStateTrack, executions := [] } "e1" cexIntent).1.status =
        ExecStatus.executed ∧
    (processIntent 500 wMonthlyAdvance wOracleExecOk
      { pm := cexStateTrack, executions := [] } "e1" cexIntent).1.transactionHash =
        some "0xabc" ∧
    (processIntent 500 wMonthlyAdvance wOracleExecOk
      { pm := cexStateTrack, executions := [] } "e1" cexIntent).2.pm.spendTracking =
      mapSet cexStateTrack.spendTracking "p1"
        (spendTrackingAfter 500 (initialTracking "p1" 100) 5 "0xabc") := by
  have hval : (validateAction 500 cexStateTrack "p1" "0xTok" (5 : Rat) "0xCon").1 =
      true := by
    rw [validateAction_true_iff]
    refine ⟨cexPerm, by decide, by decide, by decide, by decide, ?_, by decide,
      by decide⟩
    intro t ht
    rw [show mapGet cexStateTrack.spendTracking "p1" =
      some (initialTracking "p1" 100) from by decide] at ht
    have ht2 := Option.some.inj ht
    rw [← ht2]
    norm_num [initialTracking, cexPerm]
  have h := c3_executed_records_spend 500 wMonthlyAdvance wOracleExecOk
    { pm := cexStateTrack, executions := [] } "e1" cexIntent wCtxLow
    { hash := "0xabc", gasUsed := some "21000" } (initialTracking "p1" 100)
    rfl hval (by decide) rfl (by decide) rfl (fun x => rfl) rfl
  exact ⟨h.1, h.2.1, h.2.2.2.1⟩
/-! ## Claim C9: the two pipeline entry points -/

theorem queryGaiaLLM_amount_congr (o : ExecOracles) (i i' : AgentIntent)
    (ctx : MarketContext) (h : i.amount = i'.amount) :
    queryGaiaLLM o i ctx = queryGaiaLLM o i' ctx := by
  unfold queryGaiaLLM fallbackDecisionMaking
  rw [h]

/-- `executeTransaction` depends on its execution argument only through the
intent snapshot (permission id and amount), the decision, and the inherited
error and transaction-hash fields; its observable outputs and state agree
for two arguments agreeing there. -/
theorem executeTransaction_congr (now : Int) (o : ExecOracles) (s : PMState)
    (e e' : AgentExecution)
    (hpid : e.intent.permissionId = e'.intent.permissionId)
    (hamt : e.intent.amount = e'.intent.amount)
    (hdec : e.decision = e'.decision)
    (herr : e.error = e'.error)
    (htx : e.transactionHash = e'.transactionHash) :
    (executeTransaction now o s e).1.status =
      (executeTransaction now o s e').1.status ∧
    (executeTransaction now o s e).1.decision =
      (executeTransaction now o s e').1.decision ∧
    (executeTransaction now o s e).1.explanation =
      (executeTransaction now o s e').1.explanation ∧
    (executeTransaction now o s e).1.error =
      (executeTransaction now o s e').1.error ∧
    (executeTransaction now o s e).1.transactionHash =
      (executeTransaction now o s e').1.transactionHash ∧
    (executeTransaction now o s e).2 = (executeTransaction now o s e').2 := by
  unfold executeTransaction
  simp only [hpid, hamt, hdec, herr, htx]
  cases hgp : (getPermission now s e'.intent.permissionId).1 with
  | none => simp [hgp]
  | some p =>
      by_cases h1 : o.saInitialized = false
      · simp [hgp, h1]
      · by_cases h2 : o.saHasPerm (p.smartAccountPermissionId.getD p.id) = false ∧
            o.saHasPerm p.id = false
        · simp [hgp, h1, h2]
        · cases hex : o.execResult with
          | error m => simp [hgp, h1, h2, hex]
          | ok tx =>
              cases hrs : recordSpend now (getPermission now s e'.intent.permissionId).2
                  e'.intent.permissionId e'.intent.amount tx.hash with
              | ok s2 => simp [hgp, h1, h2, hex, hrs]
              | error m => simp [hgp, h1, h2, hex, hrs]

/-- Proof-internal replay of the pipeline tail that both entry points
duplicate from the validation step onward.  The two lemmas following it
prove — they do not assume — that each separately transcribed entry point
computes this tail when the wallet is connected. -/
def pipelineTail (now : Int) (o : ExecOracles) (st : AEState) (execId : String)
    (intent : AgentIntent) (e1 : AgentExecution) : AgentExecution × AEState :=
  let v := validateAction now st.pm intent.permissionId intent.tokenAddress
    intent.amount intent.contractAddress
  if v.1 = false then
    let e2 := { e1 with
      status := ExecStatus.blocked
      explanation := "Action blocked: Exceeds permission boundaries"
      decision := { e1.decision with reasoning :=
        "The requested action would violate one or more permission constraints (spend limit, time window, or contract restrictions)" } }
    (e2, { pm := v.2, executions := mapSet st.executions execId e2 })
  else
    match o.marketContext with
    | Except.error m =>
        let e2 := { e1 with
          status := ExecStatus.failed
          error := some m
          explanation := "Execution failed: " ++ m }
        (e2, { pm := v.2, executions := mapSet st.executions execId e2 })
    | Except.ok context =>
        let d := queryGaiaLLM o intent context
        let e2 := { e1 with decision := d }
        if d.shouldExecute then
          let t := executeTransaction now o v.2 e2
          match t.2.2 with
          | some m =>
              let e4 := { t.1 with
                status := ExecStatus.failed
                error := some m
                explanation := "Execution failed: " ++ m }
              (e4, { pm := t.2.1, executions := mapSet st.executions execId e4 })
          | none =>
              (t.1, { pm := t.2.1, executions := mapSet st.executions execId t.1 })
        else
          let e3 := { e2 with
            status := ExecStatus.blocked
            explanation := "Agent declined to execute: " ++ d.reasoning }
          (e3, { pm := v.2, executions := mapSet st.executions execId e3 })

theorem processIntent_as_tail (now : Int) (mA : Int → Nat → Int)
    (o : ExecOracles) (st : AEState) (execId : String) (intent : AgentIntent)
    (hconn : o.walletConnected = true) :
    processIntent now mA o st execId intent =
      pipelineTail now o st execId
        { intent with schedule :=
            (some (parseScheduleFromDescription mA now intent.description)) }
        { id := execId
          intent := { intent with schedule :=
            (some (parseScheduleFromDescription mA now intent.description)) }
          decision :=
            { shouldExecute := false, reasoning := "", confidence := 0,
              riskAssessment := "" }
          status := ExecStatus.pending
          transactionHash := none
          timestamp := now
          explanation :=
            (if (parseScheduleFromDescription mA now intent.description).type =
                  ScheduleType.recurring ∧
                ((parseScheduleFromDescription mA now intent.description).frequency.isSome
                  = true) then
              "Scheduled to run " ++
                freqName ((parseScheduleFromDescription mA now
                  intent.description).frequency.getD Frequency.daily) ++
                ". First execution will be evaluated now."
            else "")
          gasUsed := none
          error := none } := by
  unfold processIntent pipelineTail
  simp [hconn]

theorem executeIntentDirectly_as_tail (now : Int) (o : ExecOracles)
    (st : AEState) (execId : String) (intent : AgentIntent)
    (hconn : o.walletConnected = true) :
    executeIntentDirectly now o st execId intent =
      pipelineTail now o st execId intent
        { id := execId
          intent := intent
          decision :=
            { shouldExecute := false, reasoning := "", confidence := 0,
              riskAssessment := "" }
          status := ExecStatus.pending
          transactionHash := none
          timestamp := now
          explanation := ""
          gasUsed := none
          error := none } := by
  unfold executeIntentDirectly pipelineTail
  simp [hconn]

theorem pipelineTail_congr (now : Int) (o : ExecOracles) (st : AEState)
    (execId : String) (i i' : AgentIntent) (e e' : AgentExecution)
    (hpid : i.permissionId = i'.permissionId)
    (htok : i.tokenAddress = i'.tokenAddress)
    (hamt : i.amount = i'.amount)
    (hcon : i.contractAddress = i'.contractAddress)
    (hdec : e.decision = e'.decision)
    (herr : e.error = e'.error)
    (htx : e.transactionHash = e'.transactionHash)
    (hepid : e.intent.permissionId = e'.intent.permissionId)
    (heamt : e.intent.amount = e'.intent.amount) :
    (pipelineTail now o st execId i e).1.status =
      (pipelineTail now o st execId i' e').1.status ∧
    (pipelineTail now o st execId i e).1.decision =
      (pipelineTail now o st execId i' e').1.decision ∧
    (pipelineTail now o st execId i e).1.explanation =
      (pipelineTail now o st execId i' e').1.explanation ∧
    (pipelineTail now o st execId i e).1.error =
      (pipelineTail now o st execId i' e').1.error ∧
    (pipelineTail now o st execId i e).1.transactionHash =
      (pipelineTail now o st execId i' e').1.transactionHash ∧
    (pipelineTail now o st execId i e).2.pm =
      (pipelineTail now o st execId i' e').2.pm := by
  unfold pipelineTail
  simp only [hpid, htok, hamt, hcon]
  by_cases hv : (validateAction now st.pm i'.permissionId i'.tokenAddress
      i'.amount i'.contractAddress).1 = false
  · simp [hv, hdec, herr, htx]
  · simp only [hv, if_false]
    cases hctx : o.marketContext with
    | error m => simp [hv, hctx, hdec, herr, htx]
    | ok ctx =>
        have hq : queryGaiaLLM o i ctx = queryGaiaLLM o i' ctx :=
          queryGaiaLLM_amount_congr o i i' ctx hamt
        simp only [hctx, hq]
        by_cases hd : (queryGaiaLLM o i' ctx).shouldExecute = true
        · obtain ⟨g1, g2, g3, g4, g5, g6⟩ := executeTransaction_congr now o
            (validateAction now st.pm i'.permissionId i'.tokenAddress i'.amount
              i'.contractAddress).2
            { e with decision := queryGaiaLLM o i' ctx }
            { e' with decision := queryGaiaLLM o i' ctx }
            hepid heamt rfl herr htx
          simp only [hv, hd, if_true, if_false]
          rw [g6]
          cases hm : (executeTransaction now o
              (validateAction now st.pm i'.permissionId i'.tokenAddress i'.amount
                i'.contractAddress).2
              { e' with decision := queryGaiaLLM o i' ctx }).2.2 with
          | some m => simp [hm, g1, g2, g3, g4, g5, g6]
          | none => simp [hm, g1, g2, g3, g4, g5, g6]
        · simp [hv, hd, hdec, herr, htx]

/-- Collaborators reporting a disconnected wallet. -/
def wOracleDisconnected : ExecOracles :=
  { walletConnected := false, marketContext := Except.error "unused",
    llmConfigured := false, llmResult := Except.error "unused",
    saInitialized := false, saHasPerm := fun _ => false,
    execResult := Except.error "unused" }

/-- Claim C9 (corrected): with the wallet connected, the directly-submitted
pipeline and the scheduled-tick pipeline agree on status, decision,
explanation, error, transaction reference and on the resulting
permission-manager state (the spend ledger included) for every intent and
identical collaborator behaviour.  With the wallet disconnected the two are
not semantically identical: both fail with the same error and decision and
touch no ledger, but they return different explanation strings. -/
theorem c9_pipelines_semantics (now : Int) (mA : Int → Nat → Int)
    (o : ExecOracles) (st : AEState) (execId : String) (intent : AgentIntent) :
    (o.walletConnected = true →
      (processIntent now mA o st execId intent).1.status =
        (executeIntentDirectly now o st execId intent).1.status ∧
      (processIntent now mA o st execId intent).1.decision =
        (executeIntentDirectly now o st execId intent).1.decision ∧
      (processIntent now mA o st execId intent).1.explanation =
        (executeIntentDirectly now o st execId intent).1.explanation ∧
      (processIntent now mA o st execId intent).1.error =
        (executeIntentDirectly now o st execId intent).1.error ∧
      (processIntent now mA o st execId intent).1.transactionHash =
        (executeIntentDirectly now o st execId intent).1.transactionHash ∧
      (processIntent now mA o st execId intent).2.pm =
        (executeIntentDirectly now o st execId intent).2.pm) ∧
    (o.walletConnected = false →
      (processIntent now mA o st execId intent).1.status = ExecStatus.failed ∧
      (executeIntentDirectly now o st execId intent).1.status =
        ExecStatus.failed ∧
      (processIntent now mA o st execId intent).1.decision =
        (executeIntentDirectly now o st execId intent).1.decision ∧
      (processIntent now mA o st execId intent).1.error =
        (executeIntentDirectly now o st execId intent).1.error ∧
      (processIntent now mA o st execId intent).2.pm = st.pm ∧
      (executeIntentDirectly now o st execId intent).2.pm = st.pm ∧
      (processIntent now mA o st execId intent).1.explanation =
        "Cannot execute: Wallet not connected. Please connect your wallet first." ∧
      (executeIntentDirectly now o st execId intent).1.explanation =
        "Cannot execute scheduled intent: Wallet not connected.") := by
  constructor
  · intro hconn
    rw [processIntent_as_tail now mA o st execId intent hconn,
      executeIntentDirectly_as_tail now o st execId intent hconn]
    exact pipelineTail_congr now o st execId _ intent _ _
      rfl rfl rfl rfl rfl rfl rfl rfl rfl
  · intro hconn
    unfold processIntent executeIntentDirectly
    simp [hconn]

/-- Claim C9 counterexample: on a disconnected wallet the two entry points
return different explanation strings, so they are not semantically
identical as the claim states. -/
theorem c9_counterexample :
    (processIntent 0 wMonthlyAdvance wOracleDisconnected
      { pm := cexStateNoTrack, executions := [] } "e1" cexIntent).1.explanation =
      "Cannot execute: Wallet not connected. Please connect your wallet first." ∧
    (executeIntentDirectly 0 wOracleDisconnected
      { pm := cexStateNoTrack, executions := [] } "e1" cexIntent).1.explanation =
      "Cannot execute scheduled intent: Wallet not connected." ∧
    (processIntent 0 wMonthlyAdvance wOracleDisconnected
      { pm := cexStateNoTrack, executions := [] } "e1" cexIntent).1.explanation ≠
    (executeIntentDirectly 0 wOracleDisconnected
      { pm := cexStateNoTrack, executions := [] } "e1" cexIntent).1.explanation := by
  exact ⟨by decide, by decide, by decide⟩

/-- Claim C9 witness: a concrete connected run through both entry points. -/
theorem c9_pipelines_semantics_witness :
    (processIntent 500 wMonthlyAdvance wOracleExecOk
      { pm := cexStateTrack, executions := [] } "e1" cexIntent).1.status =
    (executeIntentDirectly 500 wOracleExecOk
      { pm := cexStateTrack, executions := [] } "e1" cexIntent).1.status ∧
    (processIntent 500 wMonthlyAdvance wOracleExecOk
      { pm := cexStateTrack, executions := [] } "e1" cexIntent).2.pm =
    (executeIntentDirectly 500 wOracleExecOk
      { pm := cexStateTrack, executions := [] } "e1" cexIntent).2.pm := by
  have h := (c9_pipelines_semantics 500 wMonthlyAdvance wOracleExecOk
    { pm := cexStateTrack, executions := [] } "e1" cexIntent).1 rfl
  exact ⟨h.1, h.2.2.2.2.2⟩
